import Mathlib

/-!
Verification of the pinocchio-extensions Token-2022 wire-format codec and
call-builder layer.

Bytes are modelled as natural numbers (values kept below 256 by the
encoders themselves), account buffers as `List Nat`, and the fixed-capacity
`MaybeUninit` instruction buffers as `List (Option Nat)` where `none` is an
uninitialized cell.  Rust slice indexing `&buf[a..b]` panics when the range
is out of bounds; every operation that can panic is modelled in `Option`
(`none` = panic / undefined behaviour), so a Lean result of `some _` means
the Rust code runs without faulting and produces that value.
-/

set_option maxRecDepth 16384
set_option maxHeartbeats 1000000

namespace PinocchioExt

/-- Little-endian value of a byte list: `leVal [b0, b1, ...] = b0 + 256*b1 + ...`. -/
def leVal : List Nat → Nat
  | [] => 0
  | b :: bs => b + 256 * leVal bs

/-- Little-endian two-byte encoding of a `u16` value (`u16::to_le_bytes`). -/
def u16le (n : Nat) : List Nat := [n % 256, n / 256 % 256]

/-- Little-endian eight-byte encoding of a `u64` value (`u64::to_le_bytes`). -/
def u64le (n : Nat) : List Nat :=
  [n % 256, n / 256 % 256, n / 65536 % 256, n / 16777216 % 256,
   n / 4294967296 % 256, n / 1099511627776 % 256,
   n / 281474976710656 % 256, n / 72057594037927936 % 256]

/-- Rust slice `&xs[a..b]`: `none` models the bounds-check panic when
`a > b` or `b > xs.length`. -/
def sliceRange (xs : List Nat) (a b : Nat) : Option (List Nat) :=
  if a ≤ b ∧ b ≤ xs.length then some ((xs.drop a).take (b - a)) else none

/-! ## TLV extension scanner
(`src/programs/token-2022/src/instructions/extension/mod.rs`) -/

/-- Constant `EXTENSIONS_PADDING` from `instructions/extension/mod.rs`. -/
def EXTENSIONS_PADDING : Nat := 83

/-- Constant `EXTENSION_START_OFFSET` from `instructions/extension/mod.rs`. -/
def EXTENSION_START_OFFSET : Nat := 1

/-- Constant `EXTENSION_LENGTH_LEN` from `instructions/extension/mod.rs`. -/
def EXTENSION_LENGTH_LEN : Nat := 2

/-- Constant `EXTENSION_TYPE_LEN` from `instructions/extension/mod.rs`. -/
def EXTENSION_TYPE_LEN : Nat := 2

/-- Modelled from the spec: `Mint::BASE_LEN`, the fixed byte length of a mint
account's base fields.  The crate's `state` module declaring `Mint` is not
among the provided sources; the spec fixes the TLV region start as
`base_fixed_length + padding_constant + 1` for mints, and the token
program's mint base record is 82 bytes (the in-source padding constant 83
pads a mint to the 165-byte token-account size, matching the registry
comment about a 355-byte multisig-sized account). -/
def Mint.BASE_LEN : Nat := 82

/-- Modelled from the spec: `TokenAccount::BASE_LEN`, the fixed byte length of
a token account's base fields (165 bytes for the token program's account
record); the declaring `state` module is not among the provided sources. -/
def TokenAccount.BASE_LEN : Nat := 165

/-- Models `ExtensionType::from_bytes` on the decoded `u16` value: recognized
discriminants are `0..=27`, anything else yields `None`.  The variant is
represented by its `u16` repr value. -/
def ExtensionType.fromValue (v : Nat) : Option Nat :=
  if v ≤ 27 then some v else none

/-- The `BaseState` enum from `instructions/extension/mod.rs`. -/
inductive BaseState where
  | mint : BaseState
  | tokenAccount : BaseState
deriving DecidableEq

/-- The compile-time data of an `impl Extension for T`: `T::TYPE` (as its
`u16` value), `T::BASE_LEN`, and `T::BASE_STATE`. -/
structure ExtSpec where
  ty : Nat
  baseLen : Nat
  baseState : BaseState

/-- Result of a scan: a returned payload, the `None` ("not present") result,
or a Rust panic (slice bounds-check failure). -/
inductive ScanResult where
  | found : List Nat → ScanResult
  | notFound : ScanResult
  | panicked : ScanResult
deriving DecidableEq

/-- Start offset of the TLV region for a base state: the source slices
`acc_data_bytes[Mint::BASE_LEN + EXTENSIONS_PADDING + EXTENSION_START_OFFSET..]`
for mints and `acc_data_bytes[TokenAccount::BASE_LEN + EXTENSION_START_OFFSET..]`
for token accounts. -/
def extRegionOffset : BaseState → Nat
  | .mint => Mint.BASE_LEN + EXTENSIONS_PADDING + EXTENSION_START_OFFSET
  | .tokenAccount => TokenAccount.BASE_LEN + EXTENSION_START_OFFSET

/-- The `while start < end` loop of `get_extension_from_bytes`: read the
2-byte type and 2-byte length, return the payload when the type matches and
the length field equals `T::BASE_LEN`, otherwise advance by `4 + length`.
Each slice is bounds-checked exactly as Rust indexing is. -/
def scanFixed (tyV baseLen : Nat) (ext : List Nat) (start : Nat) : ScanResult :=
  if _h : start < ext.length then
    match sliceRange ext start (start + 2) with
    | none => .panicked
    | some tb =>
      match ExtensionType.fromValue (leVal tb) with
      | none => .notFound
      | some t =>
        match sliceRange ext (start + 2) (start + 4) with
        | none => .panicked
        | some lb =>
          let l := leVal lb
          if t = tyV ∧ l = baseLen then
            match sliceRange ext (start + 4) (start + 4 + baseLen) with
            | none => .panicked
            | some payload => .found payload
          else scanFixed tyV baseLen ext (start + 4 + l)
  else .notFound
termination_by ext.length - start
decreasing_by simp_wf; omega

/-- The loop of `get_extension_data_bytes_for_variable_pack`: identical walk,
but on a type match the raw `length`-byte payload slice is returned with no
length comparison. -/
def scanVariable (tyV : Nat) (ext : List Nat) (start : Nat) : ScanResult :=
  if _h : start < ext.length then
    match sliceRange ext start (start + 2) with
    | none => .panicked
    | some tb =>
      match ExtensionType.fromValue (leVal tb) with
      | none => .notFound
      | some t =>
        match sliceRange ext (start + 2) (start + 4) with
        | none => .panicked
        | some lb =>
          let l := leVal lb
          if t = tyV then
            match sliceRange ext (start + 4) (start + 4 + l) with
            | none => .panicked
            | some payload => .found payload
          else scanVariable tyV ext (start + 4 + l)
  else .notFound
termination_by ext.length - start
decreasing_by simp_wf; omega

/-- Models `get_extension_from_bytes::<T>(acc_data_bytes)`: slice off the base
fields (+ padding for a mint) and run the fixed-size scan loop.  The initial
suffix slice `&acc_data_bytes[off..]` itself panics when the buffer is
shorter than the offset. -/
def get_extension_from_bytes (E : ExtSpec) (accData : List Nat) : ScanResult :=
  if extRegionOffset E.baseState ≤ accData.length then
    scanFixed E.ty E.baseLen (accData.drop (extRegionOffset E.baseState)) 0
  else .panicked

/-- Models `get_extension_data_bytes_for_variable_pack::<T>(acc_data_bytes)`. -/
def get_extension_data_bytes_for_variable_pack (E : ExtSpec) (accData : List Nat) : ScanResult :=
  if extRegionOffset E.baseState ≤ accData.length then
    scanVariable E.ty (accData.drop (extRegionOffset E.baseState)) 0
  else .panicked

/-- The `NonTransferable` extension (`instructions/extension/non_transferable.rs`):
`TYPE = ExtensionType::NonTransferable` (repr 9), `BASE_LEN =
size_of::<NonTransferable>() = 0` (unit struct), `BASE_STATE = Mint`. -/
def NonTransferable.spec : ExtSpec := ⟨9, 0, .mint⟩

/-- The `TokenMetadata` extension is the variable-length mint extension (repr 19) looked up
through `get_extension_data_bytes_for_variable_pack`. -/
def TokenMetadata.spec : ExtSpec := ⟨19, 0, .mint⟩

/-! ## Fixed-capacity instruction buffers -/

/-- A `[MaybeUninit<u8>; N]` stack buffer: `none` is an uninitialized cell. -/
abbrev Buffer := List (Option Nat)

/-- Modelled from the spec: the crate-root `write_bytes` helper (its defining
`lib.rs` is not among the provided sources) copies source bytes element-wise
into a destination `MaybeUninit<u8>` slice, stopping at whichever of source
or destination ends first; per §4.4 the encoder writes each field at its
declared offset.  `writeAt buf off src` is that copy with the destination
being `buf[off..]`. -/
def writeAt (buf : Buffer) (off : Nat) (src : List Nat) : Buffer :=
  buf.take off ++ (src.take (buf.length - off)).map some ++ buf.drop (off + src.length)

/-- Models `write_bytes(&mut buf[a..b], src)`: the range slice `&mut buf[a..b]`
panics (`none`) when `a > b` or `b > buf.len()`; otherwise at most `b - a`
source bytes are copied in. -/
def writeRange (buf : Buffer) (a b : Nat) (src : List Nat) : Option Buffer :=
  if a ≤ b ∧ b ≤ buf.length then some (writeAt buf a (src.take (b - a))) else none

/-- Models `from_raw_parts(buf.as_ptr(), len)` followed by reading every byte of the
result: reading an uninitialized cell or past the buffer's end is undefined
behaviour, modelled as `none`. -/
def readInit : Buffer → Nat → Option (List Nat)
  | _, 0 => some []
  | [], _ + 1 => none
  | none :: _, _ + 1 => none
  | some b :: rest, n + 1 => (readInit rest n).map (b :: ·)

/-! ## Transfer-fee instruction constants
(`src/programs/token-2022/src/instructions/extension/transfer_fee/consts.rs`) -/

/-- Discriminator for the TransferFeeExtension. -/
def TRANSFER_FEE_EXTENSION : Nat := 26

/-- Discriminator for the InitializeTransferFeeConfig. -/
def INITIALIZE_TRANSFER_FEE_CONFIG : Nat := 0

/-- Discriminator for the TransferCheckedWithFee. -/
def TRANSFER_CHECKED_WITH_FEE : Nat := 1

/-- Discriminator for the WithdrawWithheldTokensFromMint. -/
def WITHDRAW_WITHHELD_TOKENS_FROM_MINT : Nat := 2

/-- Discriminator for the WithdrawWithheldTokensFromAccounts. -/
def WITHDRAW_WITHHELD_TOKENS_FROM_ACCOUNTS : Nat := 3

/-- Discriminator for the HarvestWithheldTokensToMint. -/
def HARVEST_WITHHELD_TOKENS_TO_MINT : Nat := 4

/-- Discriminator for the SetTransferFee. -/
def SET_TRANSFER_FEE : Nat := 5

/-- Constant `MAX_MULTISIG_SIGNERS` (`src/programs/token-2022/src/extension/consts.rs`). -/
def MAX_MULTISIG_SIGNERS : Nat := 11

/-- Modelled from the spec: `MAX_CPI_ACCOUNTS`, the host-side ceiling on
accounts per cross-program call.  It is imported from the `pinocchio`
dependency (external to this repository, value 64); the spec only requires
`fixed_accounts + signers.len() ≤ MAX_CPI_ACCOUNTS`. -/
def MAX_CPI_ACCOUNTS : Nat := 64

/-- Models `set_transfer_fee_instruction_data` from
`instructions/extension/transfer_fee/state.rs`: a 12-byte buffer receives
the discriminator pair, the `u16` basis points at `[2..4]` and the `u64`
maximum fee at `[4..12]`, and the full 12-byte prefix is returned. -/
def set_transfer_fee_instruction_data
    (transfer_fee_basis_points maximum_fee : Nat) : Option (List Nat) := do
  let buf : Buffer := List.replicate 12 none
  let buf ← writeRange buf 0 12 [TRANSFER_FEE_EXTENSION, SET_TRANSFER_FEE]
  let buf ← writeRange buf 2 4 (u16le transfer_fee_basis_points)
  let buf ← writeRange buf 4 12 (u64le maximum_fee)
  readInit buf 12

/-! ## Transfer-hook extension
(`src/programs/token-2022/src/extensions/transfer_hook/`) -/

/-- Transfer Hook Extension discriminator. -/
def TRANSFER_HOOK_EXTENSION_DISCRIMINATOR : Nat := 36

/-- Initialize sub-instruction discriminator. -/
def INITIALIZE_DISCRIMINATOR : Nat := 0

/-- Models `write_optional_pubkey` from `extensions/transfer_hook/mod.rs`
(presence-flag convention): `Some(pk)` writes flag byte `1` then the 32 key
bytes and returns 33; `None` writes flag byte `0` and returns 1.  `buf` is
the whole instruction buffer and `off` the start of the destination
sub-slice `&mut buf[off..]`. -/
def TransferHook.write_optional_pubkey
    (buf : Buffer) (off : Nat) (pubkey : Option (List Nat)) : Option (Buffer × Nat) := do
  match pubkey with
  | some pk =>
    let b1 ← writeRange buf off (off + 1) [1]
    let b2 ← writeRange b1 (off + 1) (off + 33) pk
    pure (b2, 1 + 32)
  | none =>
    let b1 ← writeRange buf off (off + 1) [0]
    pure (b1, 1)

/-- The instruction-data portion of `TransferHookInitialize::invoke_signed`
(`extensions/transfer_hook/initialize.rs`): a 68-byte buffer receives the
discriminator pair at `[0]` and `[1]`, then the optional authority and the
optional hook program id in the presence-flag convention; the valid prefix
`[0, offset)` is returned. -/
def TransferHookInitialize.instruction_data
    (authority transfer_hook_program_id : Option (List Nat)) : Option (List Nat) := do
  let buf : Buffer := List.replicate 68 none
  let buf ← writeRange buf 0 1 [TRANSFER_HOOK_EXTENSION_DISCRIMINATOR]
  let buf ← writeRange buf 1 2 [INITIALIZE_DISCRIMINATOR]
  let (buf, auth_len) ← TransferHook.write_optional_pubkey buf 2 authority
  let (buf, prog_len) ← TransferHook.write_optional_pubkey buf (2 + auth_len) transfer_hook_program_id
  readInit buf (2 + auth_len + prog_len)

/-- Specification-side description of the presence-flag optional-value
convention (§4.3 Convention A): absent is the single byte `[0]`, present is
the flag byte `1` followed by the 32 key bytes.  Used to state what
`TransferHookInitialize` actually emits. -/
def presence_flag_bytes : Option (List Nat) → List Nat
  | some pk => 1 :: pk
  | none => [0]

/-! ## Metadata-pointer extension
(`src/programs/token-2022/src/extensions/metadata_pointer/state.rs`) -/

/-- Metadata Pointer Extension discriminator (matches Token-2022). -/
def METADATA_POINTER_EXTENSION_DISCRIMINATOR : Nat := 39

/-- The `MetadataPointerInstruction::Initialize` repr value. -/
def MetadataPointerInstruction.Initialize : Nat := 0

/-- The `MetadataPointerInstruction::Update` repr value. -/
def MetadataPointerInstruction.Update : Nat := 1

/-- Models `write_optional_pubkey` from `extensions/metadata_pointer/state.rs`
(zero-fill convention): always 32 bytes, the key's bytes for `Some` and 32
zero bytes for `None`, returning 32.  The caller hands it the sub-slice
`&mut out[off..off+32]`. -/
def MetadataPointer.optional_pubkey_bytes : Option (List Nat) → List Nat
  | some pk => pk
  | none => List.replicate 32 0

/-- The write performed by the metadata-pointer `write_optional_pubkey`. -/
def MetadataPointer.write_optional_pubkey
    (buf : Buffer) (off : Nat) (pubkey : Option (List Nat)) : Option (Buffer × Nat) := do
  let b1 ← writeRange buf off (off + 32) (MetadataPointer.optional_pubkey_bytes pubkey)
  pure (b1, 32)

/-- Models `encode_update_instruction_data` from
`extensions/metadata_pointer/state.rs`: writes `[39]` at `[0..1]`, the
`Update` sub-discriminator at `[1..2]`, the zero-fill optional address at
`[2..34]`, and returns 34. -/
def MetadataPointer.encode_update_instruction_data
    (out : Buffer) (new_metadata_address : Option (List Nat)) : Option (Buffer × Nat) := do
  let o1 ← writeRange out 0 1 [METADATA_POINTER_EXTENSION_DISCRIMINATOR]
  let o2 ← writeRange o1 1 2 [MetadataPointerInstruction.Update]
  let (o3, _) ← MetadataPointer.write_optional_pubkey o2 2 new_metadata_address
  pure (o3, 34)

/-! ## Bounded call builders -/

/-- Models `pinocchio::instruction::AccountMeta`, with the account key as a plain
identifier. -/
structure AccountMeta where
  key : Nat
  is_writable : Bool
  is_signer : Bool
deriving DecidableEq

/-- Constructor `AccountMeta::writable(key)`. -/
def AccountMeta.writable (key : Nat) : AccountMeta := ⟨key, true, false⟩

/-- Constructor `AccountMeta::readonly(key)`. -/
def AccountMeta.readonly (key : Nat) : AccountMeta := ⟨key, false, false⟩

/-- Constructor `AccountMeta::readonly_signer(key)`. -/
def AccountMeta.readonly_signer (key : Nat) : AccountMeta := ⟨key, false, true⟩

/-- The one error these builders return: `ProgramError::InvalidArgument`. -/
inductive ProgramError where
  | invalidArgument : ProgramError
deriving DecidableEq

/-- The observable outcome of a successful builder run: the instruction
handed to the host invoke capability (program id, data bytes, account
descriptors) together with the positionally parallel account-reference
list. -/
structure BuiltCall where
  program_id : Nat
  data : List Nat
  metas : List AccountMeta
  infos : List Nat
deriving DecidableEq

/-! ## Pausable extension (`src/programs/token-2022/src/extensions/pausable/`) -/

/-- Discriminator for `TokenInstruction::PausableExtension`. -/
def PAUSABLE_EXTENSION : Nat := 44

/-- Discriminator for `PausableInstruction::Pause`. -/
def PAUSE : Nat := 1

/-- The 2-byte instruction data built by both `Pause` paths:
`write_bytes(&mut data, &[PAUSABLE_EXTENSION])` then
`write_bytes(&mut data[1..2], &[PAUSE])`, returned whole. -/
def pause_instruction_data : Option (List Nat) := do
  let buf : Buffer := List.replicate 2 none
  let buf ← writeRange buf 0 2 [PAUSABLE_EXTENSION]
  let buf ← writeRange buf 1 2 [PAUSE]
  readInit buf 2

/-- Models `Pause::invoke_signed` (`extensions/pausable/pause.rs`): reject more than
`MAX_MULTISIG_SIGNERS` multisig accounts, then take the single-owner path
(authority as read-only signer) when the multisig list is empty, else the
multisig path (authority read-only, each multisig account a read-only
signer). -/
def Pause.invoke_signed
    (mint authority : Nat) (multisig : List Nat) (token_program : Nat) :
    Option (Except ProgramError BuiltCall) :=
  if multisig.length > MAX_MULTISIG_SIGNERS then some (.error .invalidArgument)
  else if multisig.isEmpty then
    pause_instruction_data.map fun d =>
      .ok ⟨token_program, d,
        [AccountMeta.writable mint, AccountMeta.readonly_signer authority],
        [mint, authority]⟩
  else
    pause_instruction_data.map fun d =>
      .ok ⟨token_program, d,
        [AccountMeta.writable mint, AccountMeta.readonly authority] ++
          multisig.map AccountMeta.readonly_signer,
        [mint, authority] ++ multisig⟩

/-! ## SetTransferFee, `instructions/extension/transfer_fee/set_transfer_fee.rs` -/

/-- Models `SetTransferFee::invoke_signed` of the `instructions/extension` module:
signer-bound check, then descriptors `[writable(mint), authority]` with the
authority read-only-signer exactly when the multisig list is empty, the
multisig accounts appended as read-only signers, and the data from
`set_transfer_fee_instruction_data`. -/
def InstrExtension.SetTransferFee.invoke_signed
    (mint fee_account_authority : Nat)
    (transfer_fee_basis_points maximum_fee : Nat)
    (multisig : List Nat) (token_program : Nat) :
    Option (Except ProgramError BuiltCall) :=
  if multisig.length > MAX_MULTISIG_SIGNERS then some (.error .invalidArgument)
  else
    (set_transfer_fee_instruction_data transfer_fee_basis_points maximum_fee).map fun d =>
      .ok ⟨token_program, d,
        AccountMeta.writable mint ::
          (if multisig.isEmpty then AccountMeta.readonly_signer fee_account_authority
           else AccountMeta.readonly fee_account_authority) ::
          multisig.map AccountMeta.readonly_signer,
        mint :: fee_account_authority :: multisig⟩

/-! ## SetTransferFee, `instructions/extensions/transfer_fee/set_transfer_fee.rs` -/

/-- The inline instruction-data pipeline of the sibling
`instructions/extensions` `SetTransferFee::invoke`: literal discriminators
`[26, 5]`, then the same two field writes into a 12-byte buffer. -/
def InstrExtensions.set_transfer_fee_data
    (transfer_fee_basis_points maximum_fee : Nat) : Option (List Nat) := do
  let buf : Buffer := List.replicate 12 none
  let buf ← writeRange buf 0 12 [26, 5]
  let buf ← writeRange buf 2 4 (u16le transfer_fee_basis_points)
  let buf ← writeRange buf 4 12 (u64le maximum_fee)
  readInit buf 12

/-- Models `SetTransferFee::invoke` of the `instructions/extensions` module: same
bound check, same account-descriptor construction, inline data encoding. -/
def InstrExtensions.SetTransferFee.invoke
    (mint fee_account_authority : Nat)
    (transfer_fee_basis_points maximum_fee : Nat)
    (multisig : List Nat) (token_program : Nat) :
    Option (Except ProgramError BuiltCall) :=
  if multisig.length > MAX_MULTISIG_SIGNERS then some (.error .invalidArgument)
  else
    (InstrExtensions.set_transfer_fee_data transfer_fee_basis_points maximum_fee).map fun d =>
      .ok ⟨token_program, d,
        AccountMeta.writable mint ::
          (if multisig.isEmpty then AccountMeta.readonly_signer fee_account_authority
           else AccountMeta.readonly fee_account_authority) ::
          multisig.map AccountMeta.readonly_signer,
        mint :: fee_account_authority :: multisig⟩

/-! ## WithdrawWithheldTokensFromAccounts
(`src/programs/token-2022/src/instructions/extensions/transfer_fee/withdraw_withheld_tokens_from_accounts.rs`) -/

/-- Models `WithdrawWithheldTokensFromAccounts::invoke`: signer-bound check, then
the arity check `source_accounts.len() == num_token_accounts`, then the
total-account ceiling, then data `[26, 3, num_token_accounts]` with
descriptors `[readonly(mint), writable(destination), authority]`, the
multisig accounts as read-only signers, and the source accounts as trailing
writables. -/
def WithdrawWithheldTokensFromAccounts.invoke
    (mint destination withdraw_withheld_authority : Nat)
    (num_token_accounts : Nat)
    (multisig source_accounts : List Nat) (token_program : Nat) :
    Option (Except ProgramError BuiltCall) :=
  if multisig.length > MAX_MULTISIG_SIGNERS then some (.error .invalidArgument)
  else if source_accounts.length ≠ num_token_accounts then some (.error .invalidArgument)
  else if 3 + num_token_accounts + multisig.length > MAX_CPI_ACCOUNTS then
    some (.error .invalidArgument)
  else
    some (.ok ⟨token_program, [26, 3, num_token_accounts],
      AccountMeta.readonly mint :: AccountMeta.writable destination ::
        (if multisig.isEmpty then AccountMeta.readonly_signer withdraw_withheld_authority
         else AccountMeta.readonly withdraw_withheld_authority) ::
        (multisig.map AccountMeta.readonly_signer ++
          source_accounts.map AccountMeta.writable),
      mint :: destination :: withdraw_withheld_authority :: (multisig ++ source_accounts)⟩)

/-! ## HarvestWithheldTokensToMint
(`src/programs/token-2022/src/instructions/extension/transfer_fee/harvest_withheld_tokens_to_mint.rs`) -/

/-- Models `HarvestWithheldTokensToMint::invoke_signed`: total-account ceiling, then
data `[TRANSFER_FEE_EXTENSION, WITHDRAW_WITHHELD_TOKENS_FROM_MINT]` with the
mint and every source account writable. -/
def HarvestWithheldTokensToMint.invoke_signed
    (mint : Nat) (source_accounts : List Nat) (token_program : Nat) :
    Option (Except ProgramError BuiltCall) :=
  if 1 + source_accounts.length > MAX_CPI_ACCOUNTS then some (.error .invalidArgument)
  else
    some (.ok ⟨token_program,
      [TRANSFER_FEE_EXTENSION, WITHDRAW_WITHHELD_TOKENS_FROM_MINT],
      AccountMeta.writable mint :: source_accounts.map AccountMeta.writable,
      mint :: source_accounts⟩)

/-! ## Helper lemmas -/

theorem leVal_u16le (n : Nat) (h : n < 65536) : leVal (u16le n) = n := by
  simp [u16le, leVal]; omega

theorem leVal_u64le (n : Nat) (h : n < 18446744073709551616) : leVal (u64le n) = n := by
  simp [u64le, leVal]; omega

theorem sliceRange_eq_of_le (xs : List Nat) (a b : Nat) (hab : a ≤ b) (hb : b ≤ xs.length) :
    sliceRange xs a b = some ((xs.drop a).take (b - a)) := by
  simp [sliceRange, hab, hb]

theorem readInit_map_some_append (l : List Nat) (rest : Buffer) (n : Nat) :
    readInit (l.map some ++ rest) (l.length + n) = (readInit rest n).map (l ++ ·) := by
  induction l with
  | nil => simp
  | cons b tl ih =>
    have h1 : (b :: tl).length + n = (tl.length + n) + 1 := by simp; omega
    rw [h1]
    simp only [List.map_cons, List.cons_append, readInit, List.append_eq]
    rw [ih]
    cases readInit rest n <;> simp

theorem readInit_map_some (l : List Nat) (rest : Buffer) :
    readInit (l.map some ++ rest) l.length = some l := by
  have h := readInit_map_some_append l rest 0
  simpa [readInit] using h

theorem readInit_full (l : List Nat) (rest : Buffer) (n : Nat) (h : n = l.length) :
    readInit (l.map some ++ rest) n = some l := by
  subst h; exact readInit_map_some l rest

theorem writeRange_eq (buf : Buffer) (a b : Nat) (src : List Nat)
    (h1 : a ≤ b) (h2 : b ≤ buf.length) (h3 : src.length ≤ b - a) :
    writeRange buf a b src =
      some (buf.take a ++ src.map some ++ buf.drop (a + src.length)) := by
  have hs : src.take (b - a) = src := List.take_of_length_le h3
  have hs2 : src.take (buf.length - a) = src := List.take_of_length_le (by omega)
  simp [writeRange, h1, h2, writeAt, hs, hs2]

theorem set_transfer_fee_data_eq (bp fee : Nat) :
    set_transfer_fee_instruction_data bp fee = some ([26, 5] ++ u16le bp ++ u64le fee) := rfl

theorem set_transfer_fee_data_inline_eq (bp fee : Nat) :
    InstrExtensions.set_transfer_fee_data bp fee = some ([26, 5] ++ u16le bp ++ u64le fee) := rfl

theorem pause_data_eq : pause_instruction_data = some [44, 1] := rfl

theorem th_write_optional_pubkey_some (buf : Buffer) (off : Nat) (pk : List Nat)
    (hpk : pk.length = 32) (h : off + 33 ≤ buf.length) :
    TransferHook.write_optional_pubkey buf off (some pk) =
      some (buf.take off ++ some 1 :: pk.map some ++ buf.drop (off + 33), 33) := by
  have hsplit : buf.take off ++ some (1:Nat) :: buf.drop (off + 1) =
      (buf.take off ++ [some 1]) ++ buf.drop (off + 1) := by simp
  have hA : (buf.take off ++ [some (1:Nat)]).length = off + 1 := by simp; omega
  have e1 := writeRange_eq buf off (off + 1) [1] (by omega) (by omega) (by simp)
  have e2 := writeRange_eq (buf.take off ++ some 1 :: buf.drop (off + 1))
    (off + 1) (off + 33) pk (by omega)
    (by rw [hsplit]; simp only [List.length_append, hA, List.length_drop]; omega)
    (by omega)
  have ht : (buf.take off ++ some (1:Nat) :: buf.drop (off + 1)).take (off + 1) =
      buf.take off ++ [some 1] := by
    rw [hsplit]; exact List.take_left' hA
  have hd : (buf.take off ++ some (1:Nat) :: buf.drop (off + 1)).drop (off + 1 + 32) =
      buf.drop (off + 33) := by
    rw [hsplit, show off + 1 + 32 = (buf.take off ++ [some (1:Nat)]).length + 32 by rw [hA],
      List.drop_append, List.drop_drop]
    congr 1
    omega
  rw [hpk] at e2
  rw [ht, hd] at e2
  simp [TransferHook.write_optional_pubkey, e1, e2, List.append_assoc]

theorem th_write_optional_pubkey_none (buf : Buffer) (off : Nat) (h : off + 1 ≤ buf.length) :
    TransferHook.write_optional_pubkey buf off none =
      some (buf.take off ++ some 0 :: buf.drop (off + 1), 1) := by
  have e1 := writeRange_eq buf off (off + 1) [0] (by omega) (by omega) (by simp)
  simp [TransferHook.write_optional_pubkey, e1]

theorem mp_encode_update_eq (out : Buffer) (hout : 34 ≤ out.length)
    (pk : Option (List Nat)) (hpk : (MetadataPointer.optional_pubkey_bytes pk).length = 32) :
    MetadataPointer.encode_update_instruction_data out pk =
      some (some 39 :: some 1 ::
        ((MetadataPointer.optional_pubkey_bytes pk).map some ++ out.drop 34), 34) := by
  have e1 := writeRange_eq out 0 1 [39] (by omega) (by omega) (by simp)
  simp at e1
  have e2 := writeRange_eq (some 39 :: out.drop 1) 1 2 [1] (by omega)
    (by simp; omega) (by simp)
  simp [List.drop_drop] at e2
  have e3 := writeRange_eq (some 39 :: some 1 :: out.drop 2) 2 34
    (MetadataPointer.optional_pubkey_bytes pk) (by omega) (by simp; omega) (by omega)
  rw [hpk] at e3
  simp [List.drop_drop] at e3
  simp [MetadataPointer.encode_update_instruction_data, MetadataPointer.write_optional_pubkey,
    METADATA_POINTER_EXTENSION_DISCRIMINATOR, MetadataPointerInstruction.Update, e1, e2, e3]

/-! ## Claim theorems -/

/-- C1: the claim says the TLV scan always either returns an in-buffer
payload or reports "not present", and in particular that a truncated
type/length field at the tail or an overrunning declared length ends the
scan with "not found" and never a panic.  The code contradicts this (and the
graceful intent of its own dead `try_into().ok()?` handling): Rust range
indexing panics first.  This theorem evaluates both scanners on such inputs:
a mint buffer whose TLV region is the single truncated byte `[1]` makes
`get_extension_from_bytes` panic reading the 2-byte type field, and a TLV
region `[19, 0, 200, 0]` (type `TokenMetadata`, declared length 200, no
payload) makes `get_extension_data_bytes_for_variable_pack` panic slicing
the out-of-bounds payload. -/
theorem C1_truncated_header_panics :
    get_extension_from_bytes NonTransferable.spec (List.replicate 166 0 ++ [1]) =
      .panicked ∧
    get_extension_data_bytes_for_variable_pack TokenMetadata.spec
      (List.replicate 166 0 ++ [19, 0, 200, 0]) = .panicked := by
  constructor
  · have hdrop : (List.replicate 166 (0:Nat) ++ [1]).drop 166 = [1] :=
      List.drop_left' (by simp)
    simp [get_extension_from_bytes, extRegionOffset, Mint.BASE_LEN, EXTENSIONS_PADDING,
      EXTENSION_START_OFFSET, NonTransferable.spec, hdrop]
    rw [scanFixed]
    simp [sliceRange]
  · have hdrop : (List.replicate 166 (0:Nat) ++ [19, 0, 200, 0]).drop 166 =
      [19, 0, 200, 0] := List.drop_left' (by simp)
    simp [get_extension_data_bytes_for_variable_pack, extRegionOffset, Mint.BASE_LEN,
      EXTENSIONS_PADDING, EXTENSION_START_OFFSET, TokenMetadata.spec, hdrop]
    rw [scanVariable]
    simp [sliceRange, ExtensionType.fromValue, leVal]

/-- C2 counterexample: the claim says `TransferHookInitialize` encodes in the
zero-fill convention producing exactly 66 bytes for every combination of
present/absent fields.  With both fields absent the code produces the
4-byte presence-flag encoding `[36, 0, 0, 0]`, not 66 bytes. -/
theorem C2_not_zero_fill_counterexample :
    TransferHookInitialize.instruction_data none none = some [36, 0, 0, 0] ∧
    ([36, 0, 0, 0] : List Nat).length ≠ 66 := ⟨by decide, by decide⟩

/-- C2 amended: `TransferHookInitialize.invoke_signed` encodes its data in
the presence-flag convention: byte `[0]` is the tag 36, byte `[1]` the sub
discriminator 0, then the optional authority as `[0]` or `1 :: key`, then
the optional hook program id likewise, so the length is
`2 + (1 or 33) + (1 or 33)`, not a fixed 66. -/
theorem C2_presence_flag_layout
    (authority transfer_hook_program_id : Option (List Nat))
    (ha : ∀ pk, authority = some pk → pk.length = 32)
    (hb : ∀ pk, transfer_hook_program_id = some pk → pk.length = 32) :
    TransferHookInitialize.instruction_data authority transfer_hook_program_id =
      some ([36, 0] ++ presence_flag_bytes authority ++
        presence_flag_bytes transfer_hook_program_id) := by
  cases authority with
  | none =>
    cases transfer_hook_program_id with
    | none => decide
    | some q =>
      have hq := hb q rfl
      have hr : readInit (([36, 0, 0, 1] ++ q).map some ++
          List.replicate 32 (none : Option Nat)) 36 = some ([36, 0, 0, 1] ++ q) :=
        readInit_full _ _ _ (by simp [hq])
      simp [TransferHookInitialize.instruction_data, TransferHook.write_optional_pubkey,
        writeRange, writeAt, hq, List.take_of_length_le, List.drop_eq_nil_of_le,
        List.take_append_eq_append_take, List.drop_append_eq_append_drop,
        TRANSFER_HOOK_EXTENSION_DISCRIMINATOR, INITIALIZE_DISCRIMINATOR,
        presence_flag_bytes]
      simpa using hr
  | some p =>
    have hp := ha p rfl
    cases transfer_hook_program_id with
    | none =>
      have hr : readInit (([36, 0, 1] ++ p ++ [0]).map some ++
          List.replicate 32 (none : Option Nat)) 36 = some ([36, 0, 1] ++ p ++ [0]) :=
        readInit_full _ _ _ (by simp [hp])
      simp [TransferHookInitialize.instruction_data, TransferHook.write_optional_pubkey,
        writeRange, writeAt, hp, List.take_of_length_le, List.drop_eq_nil_of_le,
        List.take_append_eq_append_take, List.drop_append_eq_append_drop,
        TRANSFER_HOOK_EXTENSION_DISCRIMINATOR, INITIALIZE_DISCRIMINATOR,
        presence_flag_bytes]
      simpa using hr
    | some q =>
      have hq := hb q rfl
      have hr : readInit (([36, 0, 1] ++ p ++ [1] ++ q).map some ++
          ([] : Buffer)) 68 = some ([36, 0, 1] ++ p ++ [1] ++ q) :=
        readInit_full _ _ _ (by simp [hp, hq])
      simp [TransferHookInitialize.instruction_data, TransferHook.write_optional_pubkey,
        writeRange, writeAt, hp, hq, List.take_of_length_le, List.drop_eq_nil_of_le,
        List.take_append_eq_append_take, List.drop_append_eq_append_drop,
        TRANSFER_HOOK_EXTENSION_DISCRIMINATOR, INITIALIZE_DISCRIMINATOR,
        presence_flag_bytes]
      simpa using hr

/-- Witness for the amended C2 theorem at two concrete 32-byte keys. -/
theorem C2_presence_flag_layout_witness :
    TransferHookInitialize.instruction_data
        (some (List.replicate 32 7)) (some (List.replicate 32 8)) =
      some ([36, 0] ++ presence_flag_bytes (some (List.replicate 32 7)) ++
        presence_flag_bytes (some (List.replicate 32 8))) :=
  C2_presence_flag_layout _ _ (fun pk h => by cases h; decide)
    (fun pk h => by cases h; decide)

/-- C3: `set_transfer_fee_instruction_data(150, 1_000_000)` is exactly the
12-byte sequence `[26, 5, 0x96, 0x00, 0x40, 0x42, 0x0F, 0, 0, 0, 0, 0]`,
and in general the result is 12 bytes: the discriminator pair `26, 5`, the
basis points as 2-byte little-endian, the maximum fee as 8-byte
little-endian. -/
theorem C3_set_transfer_fee_encoding :
    set_transfer_fee_instruction_data 150 1000000 =
      some [26, 5, 150, 0, 64, 66, 15, 0, 0, 0, 0, 0] ∧
    ∀ bp fee, bp < 65536 → fee < 18446744073709551616 →
      ∃ d, set_transfer_fee_instruction_data bp fee = some d ∧
        d.length = 12 ∧ d.take 2 = [26, 5] ∧
        leVal ((d.drop 2).take 2) = bp ∧ leVal (d.drop 4) = fee := by
  refine ⟨by decide, fun bp fee hbp hfee =>
    ⟨[26, 5] ++ u16le bp ++ u64le fee, set_transfer_fee_data_eq bp fee,
      by simp [u16le, u64le], rfl, ?_, ?_⟩⟩
  · show leVal ((([26, 5] ++ u16le bp ++ u64le fee).drop 2).take 2) = bp
    simp [u16le, u64le, leVal]
    omega
  · show leVal (([26, 5] ++ u16le bp ++ u64le fee).drop 4) = fee
    simp [u16le, u64le, leVal]
    omega

/-- Witness for C3 at the claim's concrete fee pair. -/
theorem C3_set_transfer_fee_encoding_witness :
    ∃ d, set_transfer_fee_instruction_data 150 1000000 = some d ∧
      d.length = 12 ∧ d.take 2 = [26, 5] ∧
      leVal ((d.drop 2).take 2) = 150 ∧ leVal (d.drop 4) = 1000000 :=
  C3_set_transfer_fee_encoding.2 150 1000000 (by decide) (by decide)

/-- C4: for both cited builders (`Pause` and the `instructions/extension`
`SetTransferFee`), an empty multisig list marks the authority descriptor as
signer and a non-empty list marks it read-only non-signer with each
multisig account appended as a read-only signer, after `[writable(mint)]`. -/
theorem C4_multisig_fanout (mint auth : Nat) (multisig : List Nat) (prog bp fee : Nat)
    (h : multisig.length ≤ MAX_MULTISIG_SIGNERS) :
    (∃ d, Pause.invoke_signed mint auth multisig prog =
        some (.ok ⟨prog, d,
          AccountMeta.writable mint ::
            (if multisig.isEmpty then AccountMeta.readonly_signer auth
             else AccountMeta.readonly auth) ::
            multisig.map AccountMeta.readonly_signer,
          mint :: auth :: multisig⟩)) ∧
    (∃ d, InstrExtension.SetTransferFee.invoke_signed mint auth bp fee multisig prog =
        some (.ok ⟨prog, d,
          AccountMeta.writable mint ::
            (if multisig.isEmpty then AccountMeta.readonly_signer auth
             else AccountMeta.readonly auth) ::
            multisig.map AccountMeta.readonly_signer,
          mint :: auth :: multisig⟩)) := by
  constructor
  · cases multisig with
    | nil =>
      refine ⟨[44, 1], ?_⟩
      simp [Pause.invoke_signed, pause_data_eq, MAX_MULTISIG_SIGNERS]
    | cons a t =>
      refine ⟨[44, 1], ?_⟩
      have hgt : ¬((a :: t).length > MAX_MULTISIG_SIGNERS) := by
        simp only [MAX_MULTISIG_SIGNERS] at h ⊢; omega
      simp [Pause.invoke_signed, pause_data_eq, hgt]
      simpa using h
  · cases multisig with
    | nil =>
      refine ⟨[26, 5] ++ u16le bp ++ u64le fee, ?_⟩
      simp [InstrExtension.SetTransferFee.invoke_signed, set_transfer_fee_data_eq,
        MAX_MULTISIG_SIGNERS]
    | cons a t =>
      refine ⟨[26, 5] ++ u16le bp ++ u64le fee, ?_⟩
      have hgt : ¬((a :: t).length > MAX_MULTISIG_SIGNERS) := by
        simp only [MAX_MULTISIG_SIGNERS] at h ⊢; omega
      simp [InstrExtension.SetTransferFee.invoke_signed, set_transfer_fee_data_eq, hgt]
      simpa using h

/-- Witness for C4: single-authority `Pause` yields
`[writable(mint), readonly-signer(authority)]`, and `Pause` with the two
multisig accounts 7 and 8 yields
`[writable(mint), readonly(authority), signer(7), signer(8)]`. -/
theorem C4_multisig_fanout_witness :
    (∃ d, Pause.invoke_signed 1 2 [] 9 =
        some (.ok ⟨9, d, [AccountMeta.writable 1, AccountMeta.readonly_signer 2],
          [1, 2]⟩)) ∧
    (∃ d, Pause.invoke_signed 1 2 [7, 8] 9 =
        some (.ok ⟨9, d, [AccountMeta.writable 1, AccountMeta.readonly 2,
          AccountMeta.readonly_signer 7, AccountMeta.readonly_signer 8],
          [1, 2, 7, 8]⟩)) := by
  constructor
  · have h := (C4_multisig_fanout 1 2 [] 9 0 0 (by decide)).1
    simpa using h
  · have h := (C4_multisig_fanout 1 2 [7, 8] 9 0 0 (by decide)).1
    simpa using h

/-- C5: `SetTransferFee::invoke_signed` rejects a multisig list longer than
`MAX_MULTISIG_SIGNERS` (11) with an invalid-argument error and no built
call, and any list within the bound (in particular exactly 11) passes the
check and the call is constructed. -/
theorem C5_signer_bound_enforcement (mint auth bp fee : Nat)
    (multisig : List Nat) (prog : Nat) :
    (multisig.length > MAX_MULTISIG_SIGNERS →
      InstrExtension.SetTransferFee.invoke_signed mint auth bp fee multisig prog =
        some (.error .invalidArgument)) ∧
    (multisig.length ≤ MAX_MULTISIG_SIGNERS →
      ∃ c, InstrExtension.SetTransferFee.invoke_signed mint auth bp fee multisig prog =
        some (.ok c)) := by
  constructor
  · intro hgt
    unfold InstrExtension.SetTransferFee.invoke_signed
    rw [if_pos hgt]
  · intro hle
    unfold InstrExtension.SetTransferFee.invoke_signed
    rw [if_neg (by omega)]
    exact ⟨_, by rw [set_transfer_fee_data_eq]; rfl⟩

/-- Witness for C5: 12 signers are rejected, exactly 11 succeed. -/
theorem C5_signer_bound_enforcement_witness :
    InstrExtension.SetTransferFee.invoke_signed 1 2 3 4 (List.replicate 12 9) 5 =
      some (.error .invalidArgument) ∧
    ∃ c, InstrExtension.SetTransferFee.invoke_signed 1 2 3 4 (List.replicate 11 9) 5 =
      some (.ok c) :=
  ⟨(C5_signer_bound_enforcement 1 2 3 4 (List.replicate 12 9) 5).1 (by decide),
   (C5_signer_bound_enforcement 1 2 3 4 (List.replicate 11 9) 5).2 (by decide)⟩

/-- C6: whenever the declared `num_token_accounts` differs from the supplied
source-account list's length, `WithdrawWithheldTokensFromAccounts::invoke`
returns an invalid-argument error and builds nothing. -/
theorem C6_arity_mismatch_rejected (mint dest auth num : Nat)
    (multisig srcs : List Nat) (prog : Nat)
    (hne : srcs.length ≠ num) :
    WithdrawWithheldTokensFromAccounts.invoke mint dest auth num multisig srcs prog =
      some (.error .invalidArgument) := by
  simp [WithdrawWithheldTokensFromAccounts.invoke, hne]

/-- Witness for C6: `num_token_accounts = 3` with a 2-element source list is
rejected. -/
theorem C6_arity_mismatch_rejected_witness :
    WithdrawWithheldTokensFromAccounts.invoke 1 2 3 3 [] [10, 11] 5 =
      some (.error .invalidArgument) :=
  C6_arity_mismatch_rejected 1 2 3 3 [] [10, 11] 5 (by decide)

/-- C7: in the fixed-size scan, an entry whose type matches the requested
extension but whose length field differs from the extension's declared size
is skipped: the scan result from that entry equals the scan result from the
position `4 + length` bytes further, so the mismatching entry's payload is
never returned. -/
theorem C7_fixed_len_mismatch_skipped (tyV baseLen : Nat) (ext : List Nat) (start l : Nat)
    (hb : start + 4 ≤ ext.length)
    (hty : leVal ((ext.drop start).take 2) = tyV)
    (hval : tyV ≤ 27)
    (hl : leVal ((ext.drop (start + 2)).take 2) = l)
    (hne : l ≠ baseLen) :
    scanFixed tyV baseLen ext start = scanFixed tyV baseLen ext (start + 4 + l) := by
  rw [scanFixed]
  rw [dif_pos (show start < ext.length by omega)]
  rw [sliceRange_eq_of_le ext start (start + 2) (by omega) (by omega),
    sliceRange_eq_of_le ext (start + 2) (start + 4) (by omega) (by omega)]
  simp only [show start + 2 - start = 2 by omega, show start + 4 - (start + 2) = 2 by omega]
  simp [hty, hl, ExtensionType.fromValue, hval, hne]

/-- Witness for C7: a `NonTransferable` lookup (type 9, declared size 0) on
the TLV region `[9, 0, 5, 0, 1, 2, 3, 4, 5]` skips the 5-byte entry of
matching type. -/
theorem C7_fixed_len_mismatch_skipped_witness :
    scanFixed 9 0 [9, 0, 5, 0, 1, 2, 3, 4, 5] 0 =
      scanFixed 9 0 [9, 0, 5, 0, 1, 2, 3, 4, 5] (0 + 4 + 5) :=
  C7_fixed_len_mismatch_skipped 9 0 [9, 0, 5, 0, 1, 2, 3, 4, 5] 0 5
    (by decide) (by decide) (by decide) (by decide) (by decide)

/-- C8: `encode_update_instruction_data` returns 34 and fills the
destination's first 34 bytes with `[39, 1]` followed by 32 zero bytes when
the new address is absent, or by the address's 32 bytes when present. -/
theorem C8_metadata_update_encoding (out : Buffer) (hout : 34 ≤ out.length) :
    (∃ buf, MetadataPointer.encode_update_instruction_data out none = some (buf, 34) ∧
      buf.take 34 = ([39, 1] ++ List.replicate 32 0).map some) ∧
    (∀ addr : List Nat, addr.length = 32 →
      ∃ buf, MetadataPointer.encode_update_instruction_data out (some addr) =
          some (buf, 34) ∧
        buf.take 34 = ([39, 1] ++ addr).map some) := by
  constructor
  · refine ⟨_, mp_encode_update_eq out hout none (by simp [MetadataPointer.optional_pubkey_bytes]), ?_⟩
    simp [MetadataPointer.optional_pubkey_bytes, List.take_append_eq_append_take]
  · intro addr haddr
    refine ⟨_, mp_encode_update_eq out hout (some addr)
      (by simpa [MetadataPointer.optional_pubkey_bytes] using haddr), ?_⟩
    simp [MetadataPointer.optional_pubkey_bytes, List.take_append_eq_append_take, haddr]

/-- Witness for C8 on the caller's actual 34-byte uninitialized buffer. -/
theorem C8_metadata_update_encoding_witness :
    ∃ buf, MetadataPointer.encode_update_instruction_data
        (List.replicate 34 none) none = some (buf, 34) ∧
      buf.take 34 = ([39, 1] ++ List.replicate 32 0).map some :=
  (C8_metadata_update_encoding (List.replicate 34 none) (by decide)).1

/-- C9: the sibling `SetTransferFee` implementations in
`instructions/extension` and `instructions/extensions` are observably
equivalent: on every input they build the same instruction data, the same
descriptor and reference lists, and reject exactly the same inputs. -/
theorem C9_sibling_set_transfer_fee_equivalent (mint auth bp fee : Nat)
    (multisig : List Nat) (prog : Nat) :
    InstrExtension.SetTransferFee.invoke_signed mint auth bp fee multisig prog =
    InstrExtensions.SetTransferFee.invoke mint auth bp fee multisig prog := rfl

/-- C10: `HarvestWithheldTokensToMint.invoke_signed` builds the 2-byte data
`[26, 2]` — the transfer-fee tag followed by the
`WITHDRAW_WITHHELD_TOKENS_FROM_MINT` sub-discriminator (2), not the
`HARVEST_WITHHELD_TOKENS_TO_MINT` value (4) declared in the same constants
module. -/
theorem C10_harvest_data_uses_withdraw_tag :
    (∀ mint (srcs : List Nat) prog,
      1 + srcs.length ≤ MAX_CPI_ACCOUNTS →
      ∃ c, HarvestWithheldTokensToMint.invoke_signed mint srcs prog = some (.ok c) ∧
        c.data = [26, 2]) ∧
    WITHDRAW_WITHHELD_TOKENS_FROM_MINT = 2 ∧ HARVEST_WITHHELD_TOKENS_TO_MINT = 4 ∧
    ([26, 2] : List Nat) ≠ [26, HARVEST_WITHHELD_TOKENS_TO_MINT] := by
  refine ⟨?_, rfl, rfl, by decide⟩
  intro mint srcs prog h
  unfold HarvestWithheldTokensToMint.invoke_signed
  rw [if_neg (by simp only [MAX_CPI_ACCOUNTS] at h ⊢; omega)]
  exact ⟨_, rfl, rfl⟩

/-- Witness for C10 at an empty source list. -/
theorem C10_harvest_data_uses_withdraw_tag_witness :
    ∃ c, HarvestWithheldTokensToMint.invoke_signed 0 [] 0 = some (.ok c) ∧
      c.data = [26, 2] :=
  C10_harvest_data_uses_withdraw_tag.1 0 [] 0 (by decide)

end PinocchioExt
